import Mathlib

/-!
A verification development for the `kraken-bot` repository: a shallow
embedding in Lean 4 of the bot's fixed-point decimal conversions
(`src/utils/bigint.ts`), request-signing routine (`src/utils/crypto.ts`),
client nonce generation and response handling (`src/client/KrakenClient.ts`),
and the orchestrator's decision logic (`src/index.ts`), together with
theorems settling the specification's claims about them.

JavaScript/TypeScript semantics that matter here (string `slice` with
negative indices, object spread, `querystring.stringify`, truthiness of
empty strings and arrays, `BigInt(...)` parsing of digit strings) are
modelled explicitly on `List Char` / `List Nat` so that every definition is
executable and decidable on concrete inputs.
-/

namespace KrakenBot

/-! ## JavaScript string primitives -/

/-- JS index normalisation for `String.prototype.slice`: a negative index
counts from the end (`max (len + i) 0`), a non-negative one is clamped to
`len`.  Note `-0` is indistinguishable from `0`, which is the source of the
`slice(0, -0) = ""` behaviour at scale 0. -/
def jsSliceIdx (len : Nat) (i : Int) : Nat :=
  if i < 0 then len - i.natAbs else min i.toNat len

/-- JS `s.slice(start, stop)` on a list of characters. -/
def jsSlice (l : List Char) (start stop : Int) : List Char :=
  (l.take (jsSliceIdx l.length stop)).drop (jsSliceIdx l.length start)

/-- JS `s.padStart(n, c)` (pad on the left up to length `n`). -/
def padStartList (l : List Char) (n : Nat) (c : Char) : List Char :=
  List.replicate (n - l.length) c ++ l

/-- JS `s.padEnd(n, c)` (pad on the right up to length `n`). -/
def padEndList (l : List Char) (n : Nat) (c : Char) : List Char :=
  l ++ List.replicate (n - l.length) c

/-- JS `s.split(sep)` for a single-character separator: splits at every
occurrence, keeping empty pieces ("".split(".") = [""]). -/
def splitOnCharList (c : Char) : List Char → List (List Char)
  | [] => [[]]
  | x :: xs =>
    match splitOnCharList c xs with
    | [] => [[]]
    | h :: t => if x = c then [] :: h :: t else (x :: h) :: t

/-! ## Decimal digit strings -/

/-- The decimal digit string (big-endian, no leading zeros, `"0"` for zero)
of a natural number: the output of JS `BigInt.prototype.toString` /
`String(n)` on non-negative integers. -/
def natToDecChars (n : Nat) : List Char :=
  (Nat.repr n).data

/-- Numeric value of a big-endian list of decimal digit values. -/
def digitsVal (l : List Nat) : Nat :=
  l.foldl (fun a d => a * 10 + d) 0

/-- Numeric value of a big-endian list of decimal digit characters. -/
def digitCharsVal (l : List Char) : Nat :=
  digitsVal (l.map fun c => c.toNat - 48)

/-- JS `BigInt(string)` restricted to the inputs this program feeds it:
the empty string yields `0` (as in JS), a non-empty all-digit string yields
its decimal value, and anything else throws (`none`). -/
def jsBigIntOfString (l : List Char) : Option Nat :=
  if l.isEmpty then some 0
  else if l.all (·.isDigit) then some (digitCharsVal l) else none

/-! ## `src/utils/bigint.ts` -/

/-- `parseDecimalToBigInt(value, decimals)` from `src/utils/bigint.ts`:

    const [whole = "0", fraction = ""] = value.split(".");
    const paddedFraction = fraction.padEnd(decimals, "0").slice(0, decimals);
    return BigInt(whole + paddedFraction);

(The `whole = "0"` default never fires, because `split` always returns at
least one element; a missing integer part is the empty string, which
`BigInt` happily concatenates.)  `none` models a thrown `SyntaxError`. -/
def parseDecimalToBigInt (value : String) (decimals : Nat) : Option Nat :=
  let parts := splitOnCharList (Char.ofNat 46) value.data
  let whole := (parts.get? 0).getD [Char.ofNat 48]
  let fraction := (parts.get? 1).getD []
  let paddedFraction := (padEndList fraction decimals (Char.ofNat 48)).take decimals
  jsBigIntOfString (whole ++ paddedFraction)

/-- `bigIntToDecimal(value, decimals)` from `src/utils/bigint.ts`:

    const str = value.toString().padStart(decimals + 1, "0");
    const whole = str.slice(0, -decimals) || "0";
    const fraction = str.slice(-decimals);
    return `${whole}.${fraction}`;

Modelled for non-negative values (the program only formats balances).
Note the JS quirk: for `decimals = 0`, `-decimals` is `-0 = 0`, so
`whole = "" || "0" = "0"` and `fraction` is the whole digit string. -/
def bigIntToDecimal (value : Nat) (decimals : Nat) : String :=
  let str := padStartList (natToDecChars value) (decimals + 1) (Char.ofNat 48)
  let whole0 := jsSlice str 0 (-(decimals : Int))
  let whole := if whole0.isEmpty then [Char.ofNat 48] else whole0
  let fraction := jsSlice str (-(decimals : Int)) str.length
  ⟨whole ++ Char.ofNat 46 :: fraction⟩

/-- `MINIMUM_USD_WITHDRAWAL` from `src/utils/bigint.ts`: $10.00 at scale 4. -/
def MINIMUM_USD_WITHDRAWAL : Nat := 100000

/-! ## Spec-side restatements of the conversion algorithms (claims C7/C8) -/

/-- The parsing algorithm exactly as the specification words it: split on the
decimal point, default a missing integer part to `"0"` and a missing
fractional part to `""`, right-pad the fraction with zeros to `scale` digits,
truncate to `scale` digits, concatenate and parse as one integer. -/
def claimParseDecimal (value : String) (decimals : Nat) : Option Nat :=
  let parts := splitOnCharList (Char.ofNat 46) value.data
  let whole :=
    match parts.get? 0 with
    | some w => if w.isEmpty then [Char.ofNat 48] else w
    | none => [Char.ofNat 48]
  let fraction := (parts.get? 1).getD []
  let paddedFraction := (padEndList fraction decimals (Char.ofNat 48)).take decimals
  jsBigIntOfString (whole ++ paddedFraction)

/-- The formatting algorithm exactly as the specification words it: render
with at least `scale + 1` digits (left-padded with zeros), take all but the
last `scale` digits as the integer part (`"0"` if that prefix is empty), the
last `scale` digits as the fractional part, join with a decimal point. -/
def claimFormatDecimal (value : Nat) (decimals : Nat) : String :=
  let str := padStartList (natToDecChars value) (decimals + 1) (Char.ofNat 48)
  let whole0 := str.take (str.length - decimals)
  let whole := if whole0.isEmpty then [Char.ofNat 48] else whole0
  let fraction := str.drop (str.length - decimals)
  ⟨whole ++ Char.ofNat 46 :: fraction⟩

/-! ## Byte-level string encodings

Node's `crypto` streams work on byte sequences; the TypeScript code moves
between JS strings and bytes with the implicit `utf8` encoding (for
`hash.update(encoded)`), `digest.toString("binary")` (latin-1: byte `b`
becomes the character with code point `b`), and `hmac.update(message,
"binary")` (each UTF-16 code unit's low byte).  Bytes are `Nat` values
below 256. -/

/-- UTF-8 encoding of one character. -/
def utf8EncodeChar (c : Char) : List Nat :=
  let n := c.toNat
  if n < 0x80 then [n]
  else if n < 0x800 then
    [0xC0 ||| (n >>> 6), 0x80 ||| (n &&& 0x3F)]
  else if n < 0x10000 then
    [0xE0 ||| (n >>> 12), 0x80 ||| ((n >>> 6) &&& 0x3F), 0x80 ||| (n &&& 0x3F)]
  else
    [0xF0 ||| (n >>> 18), 0x80 ||| ((n >>> 12) &&& 0x3F),
     0x80 ||| ((n >>> 6) &&& 0x3F), 0x80 ||| (n &&& 0x3F)]

/-- UTF-8 bytes of a string (Node's default encoding for `hash.update`). -/
def utf8Bytes (s : String) : List Nat :=
  s.data.flatMap utf8EncodeChar

/-- Node's `buf.toString("binary")`: latin-1 decoding, each byte becomes the
character with that code point. -/
def latin1StringOfBytes (l : List Nat) : String :=
  ⟨l.map fun b => Char.ofNat (b % 256)⟩

/-- Node's `"binary"` (latin-1) encoding of a JS string: the low byte of
each code unit. -/
def jsBinaryBytes (s : String) : List Nat :=
  s.data.map fun c => c.toNat % 256

/-- Splits a list into consecutive chunks of `k` elements (the last chunk
may be shorter); the fuel argument makes the recursion structural. -/
def chunkListAux (k : Nat) : Nat → List α → List (List α)
  | 0, _ => []
  | _, [] => []
  | fuel + 1, l => l.take k :: chunkListAux k fuel (l.drop k)

/-- `chunkList k l` groups `l` into `k`-element chunks. -/
def chunkList (k : Nat) (l : List α) : List (List α) :=
  chunkListAux k l.length l

/-! ## SHA-256 / SHA-512 (FIPS 180-4) and HMAC (RFC 2104)

These model Node's `createHash("sha256")`, `createHmac("sha512", key)`.
Both hash functions share the SHA-2 skeleton, parameterised by word size,
round constants and the four sigma functions; machine words are `Nat`
values reduced mod `2 ^ wordBits` at every arithmetic step. -/

/-- Rotate a `bits`-wide word right by `r`. -/
def rotr (bits r x : Nat) : Nat :=
  ((x >>> r) ||| (x <<< (bits - r))) % 2 ^ bits

/-- Big-endian bytes of a word, `nbytes` wide. -/
def wordToBytesBE (nbytes w : Nat) : List Nat :=
  (List.range nbytes).map fun i => (w >>> ((nbytes - 1 - i) * 8)) % 256

/-- Big-endian word value of a byte chunk. -/
def bytesToWordBE (chunk : List Nat) : Nat :=
  chunk.foldl (fun a b => a * 256 + b) 0

/-- Parameters distinguishing SHA-256 from SHA-512. -/
structure Sha2Config where
  wordBits : Nat
  blockBytes : Nat
  lenFieldBytes : Nat
  K : List Nat
  H0 : List Nat
  bS0 : Nat → Nat
  bS1 : Nat → Nat
  sS0 : Nat → Nat
  sS1 : Nat → Nat

/-- SHA-2 padding: append `0x80`, zero bytes up to `lenFieldBytes` short of
a block boundary, then the big-endian bit length. -/
def sha2Pad (cfg : Sha2Config) (msg : List Nat) : List Nat :=
  let zeros :=
    (cfg.blockBytes - (msg.length + 1 + cfg.lenFieldBytes) % cfg.blockBytes) % cfg.blockBytes
  msg ++ 0x80 :: List.replicate zeros 0 ++ wordToBytesBE cfg.lenFieldBytes (msg.length * 8)

/-- Message-schedule extension: append `count` further words, each derived
from the words 2, 7, 15 and 16 places back. -/
def sha2Extend (cfg : Sha2Config) (w : List Nat) : Nat → List Nat
  | 0 => w
  | count + 1 =>
    let i := w.length
    let nw := (cfg.sS1 (w.getD (i - 2) 0) + w.getD (i - 7) 0 +
               cfg.sS0 (w.getD (i - 15) 0) + w.getD (i - 16) 0) % 2 ^ cfg.wordBits
    sha2Extend cfg (w ++ [nw]) count

/-- One compression round on the eight working registers. -/
def sha2Round (cfg : Sha2Config) (regs : List Nat) (kw : Nat × Nat) : List Nat :=
  let m := 2 ^ cfg.wordBits
  let mask := m - 1
  match regs with
  | [a, b, c, d, e, f, g, h] =>
    let ch := (e &&& f) ^^^ ((e ^^^ mask) &&& g)
    let maj := (a &&& b) ^^^ (a &&& c) ^^^ (b &&& c)
    let t1 := (h + cfg.bS1 e + ch + kw.1 + kw.2) % m
    let t2 := (cfg.bS0 a + maj) % m
    [(t1 + t2) % m, a, b, c, (d + t1) % m, e, f, g]
  | other => other

/-- Process one padded block: build the schedule, run all rounds, add the
result into the chaining state. -/
def sha2Block (cfg : Sha2Config) (H : List Nat) (block : List Nat) : List Nat :=
  let w0 := (chunkList (cfg.wordBits / 8) block).map bytesToWordBE
  let w := sha2Extend cfg w0 (cfg.K.length - w0.length)
  let regs := (cfg.K.zip w).foldl (sha2Round cfg) H
  (H.zip regs).map fun p => (p.1 + p.2) % 2 ^ cfg.wordBits

/-- The full SHA-2 hash of a byte sequence. -/
def sha2 (cfg : Sha2Config) (msg : List Nat) : List Nat :=
  let blocks := chunkList cfg.blockBytes (sha2Pad cfg msg)
  (blocks.foldl (sha2Block cfg) cfg.H0).flatMap (wordToBytesBE (cfg.wordBits / 8))

/-- SHA-256 round constants. -/
def K256 : List Nat :=
  [1116352408, 1899447441, 3049323471, 3921009573, 961987163, 1508970993,
   2453635748, 2870763221, 3624381080, 310598401, 607225278, 1426881987,
   1925078388, 2162078206, 2614888103, 3248222580, 3835390401, 4022224774,
   264347078, 604807628, 770255983, 1249150122, 1555081692, 1996064986,
   2554220882, 2821834349, 2952996808, 3210313671, 3336571891, 3584528711,
   113926993, 338241895, 666307205, 773529912, 1294757372, 1396182291,
   1695183700, 1986661051, 2177026350, 2456956037, 2730485921, 2820302411,
   3259730800, 3345764771, 3516065817, 3600352804, 4094571909, 275423344,
   430227734, 506948616, 659060556, 883997877, 958139571, 1322822218,
   1537002063, 1747873779, 1955562222, 2024104815, 2227730452, 2361852424,
   2428436474, 2756734187, 3204031479, 3329325298]

/-- SHA-256 initial state. -/
def H256 : List Nat :=
  [1779033703, 3144134277, 1013904242, 2773480762, 1359893119, 2600822924,
   528734635, 1541459225]

/-- SHA-512 round constants. -/
def K512 : List Nat :=
  [4794697086780616226, 8158064640168781261, 13096744586834688815, 16840607885511220156,
   4131703408338449720, 6480981068601479193, 10538285296894168987, 12329834152419229976,
   15566598209576043074, 1334009975649890238, 2608012711638119052, 6128411473006802146,
   8268148722764581231, 9286055187155687089, 11230858885718282805, 13951009754708518548,
   16472876342353939154, 17275323862435702243, 1135362057144423861, 2597628984639134821,
   3308224258029322869, 5365058923640841347, 6679025012923562964, 8573033837759648693,
   10970295158949994411, 12119686244451234320, 12683024718118986047, 13788192230050041572,
   14330467153632333762, 15395433587784984357, 489312712824947311, 1452737877330783856,
   2861767655752347644, 3322285676063803686, 5560940570517711597, 5996557281743188959,
   7280758554555802590, 8532644243296465576, 9350256976987008742, 10552545826968843579,
   11727347734174303076, 12113106623233404929, 14000437183269869457, 14369950271660146224,
   15101387698204529176, 15463397548674623760, 17586052441742319658, 1182934255886127544,
   1847814050463011016, 2177327727835720531, 2830643537854262169, 3796741975233480872,
   4115178125766777443, 5681478168544905931, 6601373596472566643, 7507060721942968483,
   8399075790359081724, 8693463985226723168, 9568029438360202098, 10144078919501101548,
   10430055236837252648, 11840083180663258601, 13761210420658862357, 14299343276471374635,
   14566680578165727644, 15097957966210449927, 16922976911328602910, 17689382322260857208,
   500013540394364858, 748580250866718886, 1242879168328830382, 1977374033974150939,
   2944078676154940804, 3659926193048069267, 4368137639120453308, 4836135668995329356,
   5532061633213252278, 6448918945643986474, 6902733635092675308, 7801388544844847127]

/-- SHA-512 initial state. -/
def H512 : List Nat :=
  [7640891576956012808, 13503953896175478587, 4354685564936845355, 11912009170470909681,
   5840696475078001361, 11170449401992604703, 2270897969802886507, 6620516959819538809]

/-- The SHA-256 configuration. -/
def sha256Config : Sha2Config where
  wordBits := 32
  blockBytes := 64
  lenFieldBytes := 8
  K := K256
  H0 := H256
  bS0 := fun x => rotr 32 2 x ^^^ rotr 32 13 x ^^^ rotr 32 22 x
  bS1 := fun x => rotr 32 6 x ^^^ rotr 32 11 x ^^^ rotr 32 25 x
  sS0 := fun x => rotr 32 7 x ^^^ rotr 32 18 x ^^^ (x >>> 3)
  sS1 := fun x => rotr 32 17 x ^^^ rotr 32 19 x ^^^ (x >>> 10)

/-- The SHA-512 configuration. -/
def sha512Config : Sha2Config where
  wordBits := 64
  blockBytes := 128
  lenFieldBytes := 16
  K := K512
  H0 := H512
  bS0 := fun x => rotr 64 28 x ^^^ rotr 64 34 x ^^^ rotr 64 39 x
  bS1 := fun x => rotr 64 14 x ^^^ rotr 64 18 x ^^^ rotr 64 41 x
  sS0 := fun x => rotr 64 1 x ^^^ rotr 64 8 x ^^^ (x >>> 7)
  sS1 := fun x => rotr 64 19 x ^^^ rotr 64 61 x ^^^ (x >>> 6)

/-- SHA-256 of a byte sequence (Node `createHash("sha256")`). -/
def sha256 (msg : List Nat) : List Nat := sha2 sha256Config msg

/-- SHA-512 of a byte sequence. -/
def sha512 (msg : List Nat) : List Nat := sha2 sha512Config msg

/-- HMAC-SHA512 (Node `createHmac("sha512", key)`): hash an over-long key,
zero-pad to the 128-byte block, XOR with the inner/outer pads, nest two
SHA-512 invocations. -/
def hmacSha512 (key msg : List Nat) : List Nat :=
  let k0 := if 128 < key.length then sha512 key else key
  let kPad := k0 ++ List.replicate (128 - k0.length) 0
  let inner := sha512 ((kPad.map fun b => b ^^^ 0x36) ++ msg)
  sha512 ((kPad.map fun b => b ^^^ 0x5c) ++ inner)

/-! ## Base64 (Node `Buffer` conventions) -/

/-- The standard base64 alphabet. -/
def base64Alphabet : List Char :=
  "ABCDEFGHIJKLMNOPQRSTUVWXYZabcdefghijklmnopqrstuvwxyz0123456789+/".data

/-- Base64 encoding of a byte sequence (`buf.toString("base64")` /
`hmac.digest("base64")`), with `=` padding. -/
def base64Encode (bytes : List Nat) : String :=
  ⟨(chunkList 3 bytes).flatMap fun g =>
    match g with
    | [a, b, c] =>
      [(base64Alphabet.getD (a / 4) (Char.ofNat 65)),
       (base64Alphabet.getD ((a % 4) * 16 + b / 16) (Char.ofNat 65)),
       (base64Alphabet.getD ((b % 16) * 4 + c / 64) (Char.ofNat 65)),
       (base64Alphabet.getD (c % 64) (Char.ofNat 65))]
    | [a, b] =>
      [(base64Alphabet.getD (a / 4) (Char.ofNat 65)),
       (base64Alphabet.getD ((a % 4) * 16 + b / 16) (Char.ofNat 65)),
       (base64Alphabet.getD ((b % 16) * 4) (Char.ofNat 65)),
       Char.ofNat 61]
    | [a] =>
      [(base64Alphabet.getD (a / 4) (Char.ofNat 65)),
       (base64Alphabet.getD ((a % 4) * 16) (Char.ofNat 65)),
       Char.ofNat 61, Char.ofNat 61]
    | _ => []⟩

/-- The value of one base64 character; `none` for characters Node's
forgiving decoder skips (padding, whitespace, anything else). The URL-safe
variants `-` and `_` are accepted, as Node does. -/
def base64CharVal (c : Char) : Option Nat :=
  let n := c.toNat
  if 65 ≤ n ∧ n ≤ 90 then some (n - 65)
  else if 97 ≤ n ∧ n ≤ 122 then some (n - 97 + 26)
  else if 48 ≤ n ∧ n ≤ 57 then some (n - 48 + 52)
  else if n = 43 ∨ n = 45 then some 62
  else if n = 47 ∨ n = 95 then some 63
  else none

/-- Base64 decoding as `Buffer.from(s, "base64")` performs it: skip
non-alphabet characters, take the 6-bit groups four at a time, emit 3, 2 or
1 bytes, and drop a lone trailing group. -/
def base64Decode (s : String) : List Nat :=
  (chunkList 4 (s.data.filterMap base64CharVal)).flatMap fun g =>
    match g with
    | [a, b, c, d] => [a * 4 + b / 16, (b % 16) * 16 + c / 4, (c % 4) * 64 + d]
    | [a, b, c] => [a * 4 + b / 16, (b % 16) * 16 + c / 4]
    | [a, b] => [a * 4 + b / 16]
    | _ => []

/-! ## `querystring.stringify` (Node) -/

/-- Scalar payload field values: the program's request bodies hold strings
and numbers (the nonce is a number).  `jsString` is JS `String(v)`. -/
inductive FieldValue where
  | str (s : String)
  | num (n : Nat)
deriving DecidableEq, Repr

/-- JS `String(v)` on a payload value. -/
def FieldValue.jsString : FieldValue → String
  | .str s => s
  | .num n => Nat.repr n

/-- The characters `querystring.escape` leaves unescaped: ASCII
alphanumerics and `- _ . ! ~ * ' ( )`. -/
def qsUnreservedChar (c : Char) : Bool :=
  c.isAlphanum || c = Char.ofNat 45 || c = Char.ofNat 95 || c = Char.ofNat 46 ||
    c = Char.ofNat 33 || c = Char.ofNat 126 || c = Char.ofNat 42 ||
    c = Char.ofNat 39 || c = Char.ofNat 40 || c = Char.ofNat 41

/-- Upper-case hex digit of a value below 16. -/
def hexUpperDigit (n : Nat) : Char :=
  if n < 10 then Char.ofNat (48 + n) else Char.ofNat (55 + n)

/-- Node `querystring.escape`: percent-encode the UTF-8 bytes of every
character outside the unreserved set. -/
def qsEscape (s : String) : String :=
  ⟨s.data.flatMap fun c =>
    if qsUnreservedChar c then [c]
    else (utf8EncodeChar c).flatMap fun b =>
      [Char.ofNat 37, hexUpperDigit (b / 16), hexUpperDigit (b % 16)]⟩

/-- Node `querystring.stringify`: `escape(k)=escape(String(v))` pairs joined
with `&`, in field order.  This single serialisation is used both for the
signature input and for the HTTP body. -/
def qsStringify (fields : List (String × FieldValue)) : String :=
  String.intercalate "&" (fields.map fun kv => qsEscape kv.1 ++ "=" ++ qsEscape kv.2.jsString)

/-- First-match property lookup on a field list (a JS object has unique
keys, so first match is the only match). -/
def lookupProp (fields : List (String × FieldValue)) (k : String) : Option FieldValue :=
  (fields.find? fun kv => kv.1 = k).map fun kv => kv.2

/-- JS `{...obj, k: v}` semantics for the key `k`: if the key exists its
value is replaced in place (keeping its position), otherwise the key is
appended last. -/
def jsSetProp (fields : List (String × FieldValue)) (k : String) (v : FieldValue) :
    List (String × FieldValue) :=
  if fields.any (fun kv => kv.1 = k) then
    fields.map fun kv => if kv.1 = k then (k, v) else kv
  else fields ++ [(k, v)]

/-! ## JSON values and `JSON.parse`

`generateKrakenSignature` accepts an already-serialised JSON string and
re-parses it to find the nonce.  The parser below models `JSON.parse` on
the byte-for-byte grammar of RFC 8259 (numbers keep their source text,
which is exact for the integer nonces this program uses); `none` models a
thrown `SyntaxError`. -/

/-- A parsed JSON value. -/
inductive Json where
  | null
  | bool (b : Bool)
  | num (raw : String)
  | str (s : String)
  | arr (elems : List Json)
  | obj (fields : List (String × Json))
deriving Repr

/-- JSON whitespace. -/
def jsonWs (c : Char) : Bool :=
  c = Char.ofNat 32 ∨ c = Char.ofNat 9 ∨ c = Char.ofNat 10 ∨ c = Char.ofNat 13

/-- Drop leading JSON whitespace. -/
def skipWs (l : List Char) : List Char :=
  l.dropWhile jsonWs

/-- Decode one JSON string-literal escape; returns the decoded character and
the remaining input. -/
def jsonEscapeChar : List Char → Option (Char × List Char)
  | c :: rest =>
    if c = Char.ofNat 34 ∨ c = Char.ofNat 92 ∨ c = Char.ofNat 47 then some (c, rest)
    else if c = Char.ofNat 98 then some (Char.ofNat 8, rest)
    else if c = Char.ofNat 102 then some (Char.ofNat 12, rest)
    else if c = Char.ofNat 110 then some (Char.ofNat 10, rest)
    else if c = Char.ofNat 114 then some (Char.ofNat 13, rest)
    else if c = Char.ofNat 116 then some (Char.ofNat 9, rest)
    else if c = Char.ofNat 117 then
      match rest with
      | h1 :: h2 :: h3 :: h4 :: rest4 =>
        let hv : Char → Option Nat := fun h =>
          let n := h.toNat
          if 48 ≤ n ∧ n ≤ 57 then some (n - 48)
          else if 65 ≤ n ∧ n ≤ 70 then some (n - 55)
          else if 97 ≤ n ∧ n ≤ 102 then some (n - 87)
          else none
        match hv h1, hv h2, hv h3, hv h4 with
        | some a, some b, some c, some d => some (Char.ofNat (((a * 16 + b) * 16 + c) * 16 + d), rest4)
        | _, _, _, _ => none
      | _ => none
    else none
  | [] => none

/-- Parse the body of a JSON string literal (after the opening quote),
returning the content and the input after the closing quote. -/
def jsonStringBody : Nat → List Char → Option (List Char × List Char)
  | 0, _ => none
  | _, [] => none
  | fuel + 1, c :: rest =>
    if c = Char.ofNat 34 then some ([], rest)
    else if c = Char.ofNat 92 then
      match jsonEscapeChar rest with
      | none => none
      | some (d, rest2) =>
        match jsonStringBody fuel rest2 with
        | none => none
        | some (body, rest3) => some (d :: body, rest3)
    else
      match jsonStringBody fuel rest with
      | none => none
      | some (body, rest2) => some (c :: body, rest2)

/-- Consume a JSON number, returning its raw source text.  Grammar:
optional minus, integer part, optional fraction, optional exponent. -/
def jsonNumber (l : List Char) : Option (List Char × List Char) :=
  let isDig : Char → Bool := fun c => c.isDigit
  let (sign, l1) :=
    match l with
    | c :: rest => if c = Char.ofNat 45 then ([c], rest) else (([] : List Char), l)
    | [] => ([], l)
  let intPart := l1.takeWhile isDig
  let l2 := l1.dropWhile isDig
  if intPart.isEmpty then none
  else
    let (fracPart, l3) :=
      match l2 with
      | c :: rest =>
        if c = Char.ofNat 46 then
          let ds := rest.takeWhile isDig
          if ds.isEmpty then ([], l2) else (c :: ds, rest.dropWhile isDig)
        else (([] : List Char), l2)
      | [] => ([], l2)
    let (expPart, l4) :=
      match l3 with
      | c :: rest =>
        if c = Char.ofNat 101 ∨ c = Char.ofNat 69 then
          let (sg, r2) :=
            match rest with
            | d :: r => if d = Char.ofNat 43 ∨ d = Char.ofNat 45 then ([d], r) else (([] : List Char), rest)
            | [] => ([], rest)
          let ds := r2.takeWhile isDig
          if ds.isEmpty then ([], l3) else (c :: sg ++ ds, r2.dropWhile isDig)
        else (([] : List Char), l3)
      | [] => ([], l3)
    some (sign ++ intPart ++ fracPart ++ expPart, l4)

mutual

/-- Parse one JSON value; the fuel makes the recursion structural. -/
def jsonValue : Nat → List Char → Option (Json × List Char)
  | 0, _ => none
  | fuel + 1, input =>
    match skipWs input with
    | [] => none
    | c :: rest =>
      if c = Char.ofNat 123 then
        match skipWs rest with
        | d :: rest2 =>
          if d = Char.ofNat 125 then some (.obj [], rest2)
          else
            match jsonMembers fuel (skipWs rest) with
            | some (fields, rest3) =>
              match skipWs rest3 with
              | e :: rest4 => if e = Char.ofNat 125 then some (.obj fields, rest4) else none
              | [] => none
            | none => none
        | [] => none
      else if c = Char.ofNat 91 then
        match skipWs rest with
        | d :: rest2 =>
          if d = Char.ofNat 93 then some (.arr [], rest2)
          else
            match jsonElements fuel (skipWs rest) with
            | some (elems, rest3) =>
              match skipWs rest3 with
              | e :: rest4 => if e = Char.ofNat 93 then some (.arr elems, rest4) else none
              | [] => none
            | none => none
        | [] => none
      else if c = Char.ofNat 34 then
        match jsonStringBody rest.length rest with
        | some (body, rest2) => some (.str ⟨body⟩, rest2)
        | none => none
      else if [Char.ofNat 116, Char.ofNat 114, Char.ofNat 117, Char.ofNat 101].isPrefixOf (c :: rest) then
        some (.bool true, (c :: rest).drop 4)
      else if [Char.ofNat 102, Char.ofNat 97, Char.ofNat 108, Char.ofNat 115, Char.ofNat 101].isPrefixOf (c :: rest) then
        some (.bool false, (c :: rest).drop 5)
      else if [Char.ofNat 110, Char.ofNat 117, Char.ofNat 108, Char.ofNat 108].isPrefixOf (c :: rest) then
        some (.null, (c :: rest).drop 4)
      else
        match jsonNumber (c :: rest) with
        | some (raw, rest2) => some (.num ⟨raw⟩, rest2)
        | none => none

/-- Parse one or more comma-separated `"key": value` members. -/
def jsonMembers : Nat → List Char → Option (List (String × Json) × List Char)
  | 0, _ => none
  | fuel + 1, input =>
    match skipWs input with
    | c :: rest =>
      if c = Char.ofNat 34 then
        match jsonStringBody rest.length rest with
        | some (key, rest2) =>
          match skipWs rest2 with
          | d :: rest3 =>
            if d = Char.ofNat 58 then
              match jsonValue fuel rest3 with
              | some (v, rest4) =>
                match skipWs rest4 with
                | e :: rest5 =>
                  if e = Char.ofNat 44 then
                    match jsonMembers fuel rest5 with
                    | some (fields, rest6) => some ((⟨key⟩, v) :: fields, rest6)
                    | none => none
                  else some ([(⟨key⟩, v)], skipWs rest4)
                | [] => some ([(⟨key⟩, v)], skipWs rest4)
              | none => none
            else none
          | [] => none
        | none => none
      else none
    | [] => none

/-- Parse one or more comma-separated array elements. -/
def jsonElements : Nat → List Char → Option (List Json × List Char)
  | 0, _ => none
  | fuel + 1, input =>
    match jsonValue fuel input with
    | some (v, rest) =>
      match skipWs rest with
      | c :: rest2 =>
        if c = Char.ofNat 44 then
          match jsonElements fuel rest2 with
          | some (elems, rest3) => some (v :: elems, rest3)
          | none => none
        else some ([v], skipWs rest)
      | [] => some ([v], skipWs rest)
    | none => none

end

/-- `JSON.parse`: parse a complete value with only whitespace around it. -/
def jsonParse (s : String) : Option Json :=
  match jsonValue (s.length + 1) s.data with
  | some (v, rest) => if (skipWs rest).isEmpty then some v else none
  | none => none

/-- Property lookup on a parsed JSON value, as JS property access sees it:
on an object the last duplicate key wins (as `JSON.parse` builds it);
anything except an object has no properties. -/
def jsonGetProp (j : Json) (k : String) : Option Json :=
  match j with
  | .obj fields => ((fields.reverse).find? fun kv => kv.1 = k).map fun kv => kv.2
  | _ => none

mutual

/-- JS `String(v)` on a parsed JSON value (array/object cases follow JS
`toString`; a numeric value is echoed as its source text, which coincides
with JS for the integer nonces this code path receives). -/
def jsonJsString : Json → String
  | .null => "null"
  | .bool b => if b then "true" else "false"
  | .num raw => raw
  | .str s => s
  | .arr elems => String.intercalate "," (jsonJsStringList elems)
  | .obj _ => "[object Object]"

/-- `String(v)` mapped over array elements. -/
def jsonJsStringList : List Json → List String
  | [] => []
  | j :: js => jsonJsString j :: jsonJsStringList js

end

/-! ## `src/utils/crypto.ts` — `generateKrakenSignature` -/

/-- The runtime value passed as the `data` argument: a JSON string, an
object payload, or anything else (`null`, numbers, …) that falls through to
the `Invalid data type` branch. -/
inductive KrakenDataInput where
  | str (s : String)
  | obj (fields : List (String × FieldValue))
  | invalid
deriving Repr

/-- The ways `generateKrakenSignature` can throw: the two explicit
`Error`s, plus `JSON.parse`'s SyntaxError and the TypeError from reading
`.nonce` off `null`. -/
inductive SigError where
  | nonceRequiredData
  | nonceRequiredObject
  | invalidDataType
  | jsonParseError
  | nullAccessError
deriving DecidableEq, Repr

/-- The thrown `Error`'s message for the explicit throws in the source. -/
def SigError.message : SigError → String
  | .nonceRequiredData => "Nonce is required in data"
  | .nonceRequiredObject => "Nonce is required in data object"
  | .invalidDataType => "Invalid data type: expected string or object"
  | .jsonParseError => "SyntaxError"
  | .nullAccessError => "TypeError"

/-- The `encoded` string of `generateKrakenSignature`
(`src/utils/crypto.ts` lines 32-49): for a JSON string, `String(nonce)`
prepended to the raw string; for an object, `String(nonce)` prepended to
its `querystring.stringify` serialisation. -/
def signatureEncoded : KrakenDataInput → Except SigError String
  | .str s =>
    match jsonParse s with
    | none => .error .jsonParseError
    | some .null => .error .nullAccessError
    | some j =>
      match jsonGetProp j "nonce" with
      | none => .error .nonceRequiredData
      | some v => .ok (jsonJsString v ++ s)
  | .obj fields =>
    match lookupProp fields "nonce" with
    | none => .error .nonceRequiredObject
    | some v => .ok (v.jsString ++ qsStringify fields)
  | .invalid => .error .invalidDataType

/-- `generateKrakenSignature(urlPath, data, secret)` from
`src/utils/crypto.ts`: SHA-256 the `encoded` string (UTF-8), append the
digest to the path as a latin-1 string, HMAC-SHA512 the latin-1 bytes of
that message under the base64-decoded secret, return the base64 digest. -/
def generateKrakenSignature (urlPath : String) (data : KrakenDataInput) (secret : String) :
    Except SigError String :=
  (signatureEncoded data).map fun encoded =>
    let sha256Hash := sha256 (utf8Bytes encoded)
    let message := urlPath ++ latin1StringOfBytes sha256Hash
    let secretBuffer := base64Decode secret
    base64Encode (hmacSha512 secretBuffer (jsBinaryBytes message))

/-- The signature value computed from an already-built `encoded` string:
the common tail of `generateKrakenSignature` (lines 52-64). -/
def signatureOfEncoded (urlPath secret encoded : String) : String :=
  base64Encode (hmacSha512 (base64Decode secret)
    (jsBinaryBytes (urlPath ++ latin1StringOfBytes (sha256 (utf8Bytes encoded)))))

/-- Whether the `data` argument carries a `nonce` field: for a JSON string,
whether it parses and its parse has a `nonce` property; for an object,
whether the field list has one; an invalid input has none. -/
def dataInputHasNonce : KrakenDataInput → Bool
  | .str s =>
    match jsonParse s with
    | some j => (jsonGetProp j "nonce").isSome
    | none => false
  | .obj fields => (lookupProp fields "nonce").isSome
  | .invalid => false

/-- The signature exactly as claim C1 words it: base64 of HMAC-SHA512 keyed
by the base64-decoded secret over the URL path's bytes followed by the raw
SHA-256 digest of the nonce's decimal string prepended to the form-encoded
serialisation of the full payload. -/
def krakenSignatureSpec (urlPath : String) (fields : List (String × FieldValue))
    (secret : String) (nonceVal : FieldValue) : String :=
  base64Encode (hmacSha512 (base64Decode secret)
    (utf8Bytes urlPath ++ sha256 (utf8Bytes (nonceVal.jsString ++ qsStringify fields))))

/-! ## `src/client/KrakenClient.ts` -/

/-- `generateNonce` (lines 58-66): given the stored `nonceCounter` and the
current `Date.now()` reading, take the timestamp if it is strictly larger,
otherwise increment; the result is both the new counter and the returned
nonce. -/
def generateNonce (nonceCounter timestamp : Nat) : Nat :=
  if nonceCounter < timestamp then timestamp else nonceCounter + 1

/-- The nonces returned by consecutive `generateNonce` calls against the
given sequence of wall-clock readings, starting from counter state
`counter`. -/
def nonceStream (counter : Nat) : List Nat → List Nat
  | [] => []
  | t :: ts =>
    let n := generateNonce counter t
    n :: nonceStream n ts

/-- The payload assembly of `request` (lines 83-93):
`payload = {...body, nonce}` (a caller-supplied `nonce` is overwritten in
place), then `if (otp) payload.otp = otp` (JS truthiness: an empty string
is not added). -/
def buildPayload (body : List (String × FieldValue)) (nonce : Nat) (otp : Option String) :
    List (String × FieldValue) :=
  let payload := jsSetProp body "nonce" (.num nonce)
  match otp with
  | some o => if o = "" then payload else jsSetProp payload "otp" (.str o)
  | none => payload

/-- Everything `request` derives from the payload before the HTTP exchange:
the payload itself, the `API-Sign` header value, and the form-encoded body
string sent over the wire (lines 96-105). -/
structure PreparedRequest where
  payload : List (String × FieldValue)
  signature : Except SigError String
  formData : String
deriving Repr

/-- The signing-and-serialisation stage of `request`: one payload object is
passed both to `generateKrakenSignature` and to `stringify`. -/
def prepareRequest (endpoint secret : String) (body : List (String × FieldValue))
    (nonce : Nat) (otp : Option String) : PreparedRequest :=
  let payload := buildPayload body nonce otp
  { payload := payload
    signature := generateKrakenSignature endpoint (.obj payload) secret
    formData := qsStringify payload }

/-- The parsed JSON envelope `{ error: string[]; result?: T }`; `error` is
an `Option` because the runtime check `data.error && ...` tolerates its
absence. -/
structure ApiEnvelope (T : Type) where
  error : Option (List String)
  result : Option T

/-- What the HTTP layer hands back: the response status line, the body
text, and the body parsed as JSON (`none` when `response.json()` would
throw). -/
structure HttpResponse (T : Type) where
  status : Nat
  statusText : String
  bodyText : String
  json : Option (ApiEnvelope T)

/-- `fetch`'s `Response.ok`: status in the inclusive range 200-299. -/
def responseOk (status : Nat) : Bool :=
  200 ≤ status ∧ status ≤ 299

/-- The error thrown by `request` (lines 117-128): a transport error for a
non-2xx status, an API error for a non-empty envelope `error` array, or the
SyntaxError from `response.json()`. -/
inductive RequestError where
  | httpError (status : Nat) (statusText : String) (bodyText : String)
  | apiError (joined : String)
  | jsonParseFailed
deriving DecidableEq, Repr

/-- The thrown `Error`'s message, exactly as the template literals build
it. -/
def RequestError.message : RequestError → String
  | .httpError status statusText bodyText =>
    "Kraken API HTTP error: " ++ Nat.repr status ++ " " ++ statusText ++ " - " ++ bodyText
  | .apiError joined => "Kraken API error: " ++ joined
  | .jsonParseFailed => "SyntaxError"

/-- The response-unwrapping stage of `request` (lines 117-130): non-2xx
fails with status and body text; a non-empty `error` array fails with the
joined strings; otherwise `result` is returned as-is. -/
def handleKrakenResponse (r : HttpResponse T) : Except RequestError (Option T) :=
  if responseOk r.status then
    match r.json with
    | none => .error .jsonParseFailed
    | some envelope =>
      match envelope.error with
      | some errs =>
        if 0 < errs.length then .error (.apiError (String.intercalate ", " errs))
        else .ok envelope.result
      | none => .ok envelope.result
  else .error (.httpError r.status r.statusText r.bodyText)

/-! ## API wrappers and the orchestrator (`src/api/*.ts`, `src/index.ts`)

`src/api/balance.ts` is referenced by the entry point but is not part of
the sources; the orchestrator model therefore takes the decimal balance
strings that `getAssetBalance` returns as inputs from the environment.
All decision logic below is translated from `src/index.ts` (`main`). -/

/-- The body `sellUSDCToUSD(client, volume)` sends to `/0/private/AddOrder`
(`src/api/trading.ts` lines 55-67): a market sell on the USDCUSD pair. -/
def sellUSDCToUSDBody (volume : String) : List (String × FieldValue) :=
  [("type", .str "sell"), ("ordertype", .str "market"),
   ("pair", .str "USDCUSD"), ("volume", .str volume)]

/-- The body `withdraw(client, asset, key, amount)` sends to
`/0/private/Withdraw` (`src/api/withdrawal.ts` lines 58-75). -/
def withdrawBody (asset key amount : String) : List (String × FieldValue) :=
  [("asset", .str asset), ("key", .str key), ("amount", .str amount)]

/-- `withdrawToMercury(client, amount)` (`src/api/withdrawal.ts` lines
90-96): delegates to `withdraw` with the hard-coded asset `"USD"` and the
hard-coded withdrawal key `"Mercury"`. -/
def withdrawToMercuryBody (amount : String) : List (String × FieldValue) :=
  withdrawBody "USD" "Mercury" amount

/-- The configuration surface of `src/config.ts` that the orchestrator
reads: the minimum-withdrawal threshold (in whole USD) and the withdrawal
destination key loaded from `USD_WITHDRAWAL_KEY`. -/
structure AppConfig where
  minimumWithdrawalUSD : Nat
  usdWithdrawalKey : String

/-- One step of the orchestrator's observable behaviour: a private API
call with its endpoint and body, or the fixed settlement pause. -/
inductive BotAction where
  | queryBalance (asset : String)
  | privateCall (endpoint : String) (body : List (String × FieldValue))
  | settleWait (ms : Nat)
deriving DecidableEq, Repr

/-- The fixed sequence of `main` (`src/index.ts`), as a function of the
configuration and the two balance strings the exchange reports.  A `none`
from `parseDecimalToBigInt` (a thrown `SyntaxError`) aborts the run with
the actions performed so far, mirroring the `try/catch`.

    Step 1: query the USDC balance and parse it at scale 8.
    Step 2: if it is > 0n, sell the full balance via `sellUSDCToUSD`.
    Wait 2000 ms.
    Step 3: query the ZUSD balance, parse it at scale 4, and if it is at
    least `BigInt(config.minimumWithdrawalUSD * 10_000)`, withdraw the full
    balance via `withdrawToMercury`. -/
def mainTrace (config : AppConfig) (usdcBalance usdBalance : String) :
    List BotAction × Bool :=
  match parseDecimalToBigInt usdcBalance 8 with
  | none => ([.queryBalance "USDC"], false)
  | some usdcBalanceBigInt =>
    let sellStep : List BotAction :=
      if 0 < usdcBalanceBigInt then
        [.privateCall "/0/private/AddOrder" (sellUSDCToUSDBody usdcBalance)]
      else []
    let prefixActions := .queryBalance "USDC" :: sellStep ++ [.settleWait 2000, .queryBalance "ZUSD"]
    match parseDecimalToBigInt usdBalance 4 with
    | none => (prefixActions, false)
    | some usdBalanceBigInt =>
      let minimumWithdrawal := config.minimumWithdrawalUSD * 10000
      let withdrawStep : List BotAction :=
        if minimumWithdrawal ≤ usdBalanceBigInt then
          [.privateCall "/0/private/Withdraw" (withdrawToMercuryBody usdBalance)]
        else []
      (prefixActions ++ withdrawStep, true)

/-! ## Helper lemmas: decimal digit strings -/

theorem toDigitsCore_eq_digits :
    ∀ (fuel n : Nat) (ds : List Char), n < fuel → 0 < n →
      Nat.toDigitsCore 10 fuel n ds = ((Nat.digits 10 n).map Nat.digitChar).reverse ++ ds
  | 0, _, _, hf, hn => by omega
  | fuel + 1, n, ds, hf, hn => by
    rw [Nat.digits_def' (by norm_num : (1:Nat) < 10) hn]
    simp only [Nat.toDigitsCore, List.map_cons, List.reverse_cons]
    by_cases h10 : n / 10 = 0
    · simp [h10, Nat.digits_zero]
    · have hrec := toDigitsCore_eq_digits fuel (n / 10) (Nat.digitChar (n % 10) :: ds)
        (by omega) (Nat.pos_of_ne_zero h10)
      simp [h10, hrec]

theorem natToDecChars_eq (n : Nat) :
    natToDecChars n =
      if n = 0 then [Char.ofNat 48] else ((Nat.digits 10 n).map Nat.digitChar).reverse := by
  by_cases hn : n = 0
  · subst hn; decide
  · have h := toDigitsCore_eq_digits (n + 1) n [] (by omega) (Nat.pos_of_ne_zero hn)
    simp only [natToDecChars, Nat.repr, Nat.toDigits, h, hn, if_false]
    simp [List.asString]

theorem digitsVal_append (l : List Nat) (d : Nat) :
    digitsVal (l ++ [d]) = digitsVal l * 10 + d := by
  simp [digitsVal, List.foldl_append]

theorem digitsVal_reverse_ofDigits (l : List Nat) :
    digitsVal l.reverse = Nat.ofDigits 10 l := by
  induction l with
  | nil => rfl
  | cons d t ih =>
    rw [List.reverse_cons, digitsVal_append, ih, Nat.ofDigits_cons]
    ring

theorem digitChar_toNat_sub (d : Nat) (h : d < 10) : (Nat.digitChar d).toNat - 48 = d := by
  interval_cases d <;> rfl

theorem digitChar_isDigit (d : Nat) (h : d < 10) : (Nat.digitChar d).isDigit = true := by
  interval_cases d <;> rfl

theorem digitCharsVal_map_digitChar (l : List Nat) (h : ∀ d ∈ l, d < 10) :
    digitCharsVal (l.map Nat.digitChar) = digitsVal l := by
  unfold digitCharsVal
  rw [List.map_map]
  congr 1
  refine List.map_congr_left ?_ |>.trans (List.map_id l)
  intro d hd
  exact digitChar_toNat_sub d (h d hd)

theorem digitCharsVal_natToDecChars (n : Nat) : digitCharsVal (natToDecChars n) = n := by
  rw [natToDecChars_eq]
  by_cases hn : n = 0
  · subst hn; decide
  · rw [if_neg hn, ← List.map_reverse, digitCharsVal_map_digitChar]
    · rw [digitsVal_reverse_ofDigits, Nat.ofDigits_digits]
    · intro d hd
      exact Nat.digits_lt_base (by norm_num) (List.mem_reverse.mp hd)

theorem natToDecChars_isDigit (n : Nat) : ∀ c ∈ natToDecChars n, c.isDigit = true := by
  rw [natToDecChars_eq]
  by_cases hn : n = 0
  · subst hn; decide
  · rw [if_neg hn]
    intro c hc
    rw [List.mem_reverse, List.mem_map] at hc
    obtain ⟨d, hd, rfl⟩ := hc
    exact digitChar_isDigit d (Nat.digits_lt_base (by norm_num) hd)

theorem digitCharsVal_cons_zero (l : List Char) :
    digitCharsVal (Char.ofNat 48 :: l) = digitCharsVal l := by
  simp [digitCharsVal, digitsVal]

theorem digitCharsVal_replicate_zero (k : Nat) (l : List Char) :
    digitCharsVal (List.replicate k (Char.ofNat 48) ++ l) = digitCharsVal l := by
  induction k with
  | zero => rfl
  | succ m ih => rw [List.replicate_succ, List.cons_append, digitCharsVal_cons_zero, ih]

theorem isDigit_ne_dot (c : Char) (h : c.isDigit = true) : ¬ c = Char.ofNat 46 := by
  intro heq
  subst heq
  exact absurd h (by decide)

/-! ## Helper lemmas: JS `split` and `slice` -/

theorem splitOnCharList_ne_nil (c : Char) (l : List Char) : splitOnCharList c l ≠ [] := by
  cases l with
  | nil => simp [splitOnCharList]
  | cons x xs =>
    simp only [splitOnCharList]
    rcases h : splitOnCharList c xs with _ | ⟨h', t⟩
    · simp
    · by_cases hx : x = c <;> simp [hx]

theorem splitOnCharList_no_sep (c : Char) (l : List Char) (h : c ∉ l) :
    splitOnCharList c l = [l] := by
  induction l with
  | nil => rfl
  | cons x xs ih =>
    have hx : ¬ x = c := fun heq => h (heq ▸ List.mem_cons_self x xs)
    have hxs : c ∉ xs := fun hm => h (List.mem_cons_of_mem x hm)
    simp only [splitOnCharList, ih hxs]
    simp [hx]

theorem splitOnCharList_append (c : Char) (a b : List Char) (ha : c ∉ a) :
    splitOnCharList c (a ++ c :: b) = a :: splitOnCharList c b := by
  induction a with
  | nil =>
    simp only [List.nil_append, splitOnCharList]
    rcases h : splitOnCharList c b with _ | ⟨h', t⟩
    · exact absurd h (splitOnCharList_ne_nil c b)
    · simp
  | cons x xs ih =>
    have hx : ¬ x = c := fun heq => ha (heq ▸ List.mem_cons_self x xs)
    have hxs : c ∉ xs := fun hm => ha (List.mem_cons_of_mem x hm)
    simp only [List.cons_append, splitOnCharList, List.append_eq]
    rw [ih hxs]
    simp [hx]

theorem jsSlice_take (l : List Char) (s : Nat) (hs : 1 ≤ s) :
    jsSlice l 0 (-(s : Int)) = l.take (l.length - s) := by
  have hneg : -(s : Int) < 0 := by omega
  have habs : (-(s : Int)).natAbs = s := by omega
  simp [jsSlice, jsSliceIdx, hneg, habs]

theorem jsSlice_drop (l : List Char) (s : Nat) (hs : 1 ≤ s) :
    jsSlice l (-(s : Int)) (l.length : Int) = l.drop (l.length - s) := by
  have hneg : -(s : Int) < 0 := by omega
  have habs : (-(s : Int)).natAbs = s := by omega
  have hnn : ¬ ((l.length : Int) < 0) := by omega
  simp [jsSlice, jsSliceIdx, hneg, habs, hnn, List.take_length]

theorem jsBigIntOfString_cons_zero (l : List Char) :
    jsBigIntOfString (Char.ofNat 48 :: l) = jsBigIntOfString l := by
  cases l with
  | nil => decide
  | cons x xs =>
    unfold jsBigIntOfString
    by_cases hall : (x :: xs).all (fun c => c.isDigit) = true
    · simp [hall, digitCharsVal_cons_zero]
    · simp only [List.isEmpty_cons, List.all_cons] at *
      simp [hall]

/-- Parsing a string of the shape `digits ++ "." ++ s-many-digits` at scale
`s` yields the value of the concatenated digits. -/
theorem parseDecimal_of_digit_split (w f : List Char) (s : Nat)
    (hw : ∀ c ∈ w, c.isDigit = true) (hf : ∀ c ∈ f, c.isDigit = true)
    (hflen : f.length = s) (hwne : w ≠ []) :
    parseDecimalToBigInt ⟨w ++ Char.ofNat 46 :: f⟩ s = some (digitCharsVal (w ++ f)) := by
  have hwdot : Char.ofNat 46 ∉ w := fun hm => isDigit_ne_dot _ (hw _ hm) rfl
  have hfdot : Char.ofNat 46 ∉ f := fun hm => isDigit_ne_dot _ (hf _ hm) rfl
  unfold parseDecimalToBigInt
  have hsplit : splitOnCharList (Char.ofNat 46) (String.mk (w ++ Char.ofNat 46 :: f)).data
      = w :: [f] := by
    show splitOnCharList (Char.ofNat 46) (w ++ Char.ofNat 46 :: f) = w :: [f]
    rw [splitOnCharList_append _ _ _ hwdot, splitOnCharList_no_sep _ _ hfdot]
  rw [hsplit]
  simp only [List.get?, Option.getD_some]
  have hpad : (padEndList f s (Char.ofNat 48)).take s = f := by
    unfold padEndList
    rw [hflen, Nat.sub_self, List.replicate_zero, List.append_nil]
    exact List.take_of_length_le (by omega)
  rw [hpad]
  unfold jsBigIntOfString
  have hne : (w ++ f).isEmpty = false := by
    cases w with
    | nil => exact absurd rfl hwne
    | cons a as => rfl
  have hall : (w ++ f).all (fun c => c.isDigit) = true := by
    rw [List.all_eq_true]
    intro c hc
    rcases List.mem_append.mp hc with h | h
    · exact hw c h
    · exact hf c h
  simp [hne, hall]

/-- The padded digit string that `bigIntToDecimal` slices. -/
theorem padStart_digits (u s : Nat) :
    (s + 1 ≤ (padStartList (natToDecChars u) (s + 1) (Char.ofNat 48)).length) ∧
      (∀ c ∈ padStartList (natToDecChars u) (s + 1) (Char.ofNat 48), c.isDigit = true) ∧
      digitCharsVal (padStartList (natToDecChars u) (s + 1) (Char.ofNat 48)) = u := by
  unfold padStartList
  refine ⟨?_, ?_, ?_⟩
  · rw [List.length_append, List.length_replicate]
    omega
  · intro c hc
    rcases List.mem_append.mp hc with h | h
    · rw [List.eq_of_mem_replicate h]; decide
    · exact natToDecChars_isDigit u c h
  · rw [digitCharsVal_replicate_zero, digitCharsVal_natToDecChars]

/-- For any positive scale, formatting then parsing recovers the value. -/
theorem parse_format_roundTrip (u s : Nat) (hs : 1 ≤ s) :
    parseDecimalToBigInt (bigIntToDecimal u s) s = some u := by
  obtain ⟨hlen, hdig, hval⟩ := padStart_digits u s
  set str := padStartList (natToDecChars u) (s + 1) (Char.ofNat 48) with hstr
  have hne : (str.take (str.length - s)).isEmpty = false := by
    have : (str.take (str.length - s)).length = str.length - s := by
      rw [List.length_take]
      omega
    cases h : str.take (str.length - s) with
    | nil => rw [h] at this; simp at this; omega
    | cons a as => rfl
  have hfmt : bigIntToDecimal u s =
      String.mk (str.take (str.length - s) ++ Char.ofNat 46 :: str.drop (str.length - s)) := by
    unfold bigIntToDecimal
    dsimp only
    rw [← hstr, jsSlice_take _ _ hs, jsSlice_drop _ _ hs, hne]
    simp
  rw [hfmt, parseDecimal_of_digit_split]
  · rw [List.take_append_drop, hval]
  · intro c hc
    exact hdig c (List.take_subset _ _ hc)
  · intro c hc
    exact hdig c (List.drop_subset _ _ hc)
  · rw [List.length_drop]
    omega
  · intro h
    rw [h] at hne
    exact absurd hne (by decide)

/-! ## Claims C2, C7, C8 — fixed-point decimal conversions -/

/-- C2, counterexample: the round-trip law fails at scale 0.  Formatting
`1` at scale 0 gives `"0.1"` (JS `slice(0, -0)` is empty, so the digits all
land in the fractional part), and parsing `"0.1"` back at scale 0 discards
the fraction, giving `0`, not `1`. -/
theorem C2_counterexample_scale_zero :
    parseDecimalToBigInt (bigIntToDecimal 1 0) 0 = some 0 ∧
      ¬ parseDecimalToBigInt (bigIntToDecimal 1 0) 0 = some 1 := by
  constructor <;> decide

/-- C2 (amended): for every non-negative integer `u` and every scale
`s ≥ 1`, parsing the string produced by formatting `u` at scale `s`, back
at the same scale, yields `u`:
`parseDecimalToBigInt (bigIntToDecimal u s) s = u`.  (At scale 0 the law
fails, see the counterexample.) -/
theorem C2_roundTrip (u s : Nat) (hs : 1 ≤ s) :
    parseDecimalToBigInt (bigIntToDecimal u s) s = some u :=
  parse_format_roundTrip u s hs

/-- C2, witness: the round-trip theorem applied at `u = 36614886400`,
`s = 8`. -/
theorem C2_roundTrip_witness :
    1 ≤ 8 ∧ parseDecimalToBigInt (bigIntToDecimal 36614886400 8) 8 = some 36614886400 :=
  ⟨by decide, C2_roundTrip 36614886400 8 (by decide)⟩

/-- C7: for every decimal string and scale, `parseDecimalToBigInt` computes
exactly the algorithm the claim describes — split on the decimal point,
treat a missing fraction as `""` and a missing integer part as `"0"`,
right-pad the fraction with zeros to the scale, truncate without rounding,
concatenate and parse as one integer — and in particular
`parse("366.14886400", 8) = 36614886400`, `parse("0.00000000", 8) = 0`,
`parse("10.50", 2) = 1050`. -/
theorem C7_parse_algorithm :
    (∀ (value : String) (s : Nat), parseDecimalToBigInt value s = claimParseDecimal value s) ∧
      parseDecimalToBigInt "366.14886400" 8 = some 36614886400 ∧
      parseDecimalToBigInt "0.00000000" 8 = some 0 ∧
      parseDecimalToBigInt "10.50" 2 = some 1050 := by
  refine ⟨fun value s => ?_, by decide, by decide, by decide⟩
  unfold parseDecimalToBigInt claimParseDecimal
  rcases h : splitOnCharList (Char.ofNat 46) value.data with _ | ⟨w, t⟩
  · exact absurd h (splitOnCharList_ne_nil _ _)
  · cases w with
    | nil => simp [jsBigIntOfString_cons_zero]
    | cons a as => simp

/-- C8, counterexample: at scale 0 the integer part is not "all but the
last 0 digits".  The code formats `5` at scale 0 as `"0.5"` (JS
`slice(0, -0)` yields the empty string, so the `|| "0"` fallback fires and
every digit lands in the fraction), while the claim's description yields
`"5."`. -/
theorem C8_counterexample_scale_zero :
    bigIntToDecimal 5 0 = "0.5" ∧ claimFormatDecimal 5 0 = "5." ∧
      ¬ bigIntToDecimal 5 0 = claimFormatDecimal 5 0 := by
  refine ⟨by decide, by decide, by decide⟩

/-- C8 (amended): for every non-negative `u` and every scale `s ≥ 1`,
`bigIntToDecimal` renders `u` with at least `s + 1` digits left-padded with
zeros, takes all but the last `s` digits as the integer part (`"0"` if that
prefix is empty), the last `s` digits as the fractional part, and joins
them with a decimal point; in particular
`format(36614886400, 8) = "366.14886400"` and `format(1050, 2) = "10.50"`.
(At scale 0 the quoted description fails, see the counterexample.) -/
theorem C8_format_algorithm :
    (∀ (u s : Nat), 1 ≤ s → bigIntToDecimal u s = claimFormatDecimal u s) ∧
      bigIntToDecimal 36614886400 8 = "366.14886400" ∧
      bigIntToDecimal 1050 2 = "10.50" := by
  refine ⟨fun u s hs => ?_, by decide, by decide⟩
  unfold bigIntToDecimal claimFormatDecimal
  dsimp only
  rw [jsSlice_take _ _ hs, jsSlice_drop _ _ hs]

/-- C8, witness: the amended formatting theorem applied at `u = 1050`,
`s = 2`. -/
theorem C8_format_witness :
    1 ≤ 2 ∧ bigIntToDecimal 1050 2 = claimFormatDecimal 1050 2 :=
  ⟨by decide, C8_format_algorithm.1 1050 2 (by decide)⟩

/-! ## Claim C3 — nonce generation -/

theorem generateNonce_gt (counter t : Nat) : counter < generateNonce counter t := by
  unfold generateNonce
  rcases Nat.lt_or_ge counter t with h | h
  · rw [if_pos h]; exact h
  · rw [if_neg (by omega)]; omega

theorem nonceStream_chain (counter : Nat) (ts : List Nat) :
    List.Chain' (· < ·) (counter :: nonceStream counter ts) := by
  induction ts generalizing counter with
  | nil => simp [nonceStream]
  | cons t ts ih =>
    rw [nonceStream, List.chain'_cons]
    exact ⟨generateNonce_gt counter t, ih (generateNonce counter t)⟩

/-- C3: for a single client instance, any sequence of `generateNonce` calls
against any sequence of wall-clock readings (including repeated or
backwards readings) returns strictly increasing nonces; a reading strictly
above the stored counter becomes the nonce, any other reading yields the
counter incremented by 1. -/
theorem C3_nonce_strictly_increasing :
    (∀ (counter : Nat) (ts : List Nat), List.Chain' (· < ·) (nonceStream counter ts)) ∧
      (∀ counter t, counter < t → generateNonce counter t = t) ∧
      (∀ counter t, ¬ counter < t → generateNonce counter t = counter + 1) := by
  refine ⟨fun counter ts => (nonceStream_chain counter ts).tail, ?_, ?_⟩
  · intro counter t h
    simp [generateNonce, h]
  · intro counter t h
    simp [generateNonce, h]

/-- C3, witness: the theorem applied to a burst of calls inside one
millisecond (readings `999, 1000, 1000, 500`) from counter `1000`. -/
theorem C3_nonce_witness :
    List.Chain' (· < ·) (nonceStream 1000 [999, 1000, 1000, 500]) ∧
      generateNonce 1000 1001 = 1001 ∧ generateNonce 1000 1000 = 1001 :=
  ⟨C3_nonce_strictly_increasing.1 1000 [999, 1000, 1000, 500],
   C3_nonce_strictly_increasing.2.1 1000 1001 (by decide),
   C3_nonce_strictly_increasing.2.2 1000 1000 (by decide)⟩

/-! ## Claim C4 — response envelope contract -/

/-- C4: `request`'s response handling.  A non-2xx status fails with a
transport error carrying the status code and the response body text; a 2xx
status whose envelope holds a non-empty `error` array — even with status
200 — fails with the joined error strings; otherwise the envelope's
`result` is returned. -/
theorem C4_response_contract {T : Type} (r : HttpResponse T) :
    (responseOk r.status = false →
        handleKrakenResponse r = .error (.httpError r.status r.statusText r.bodyText)) ∧
      (∀ env errs, responseOk r.status = true → r.json = some env → env.error = some errs →
        errs ≠ [] →
        handleKrakenResponse r = .error (.apiError (String.intercalate ", " errs))) ∧
      (∀ env, responseOk r.status = true → r.json = some env →
        (env.error = none ∨ env.error = some []) →
        handleKrakenResponse r = .ok env.result) := by
  refine ⟨?_, ?_, ?_⟩
  · intro hok
    simp [handleKrakenResponse, hok]
  · intro env errs hok hj herr hne
    have hlen : 0 < errs.length := List.length_pos.mpr hne
    simp [handleKrakenResponse, hok, hj, herr, hlen]
  · intro env hok hj herr
    rcases herr with h | h <;> simp [handleKrakenResponse, hok, hj, h]

/-- C4, witness: the contract applied to a 500 response, to a 200 response
with a non-empty `error` array, and to a clean 200 response. -/
theorem C4_response_witness :
    handleKrakenResponse (T := Nat) ⟨500, "Internal Server Error", "boom", none⟩ =
        .error (.httpError 500 "Internal Server Error" "boom") ∧
      handleKrakenResponse (T := Nat) ⟨200, "OK", "{}", some ⟨some ["EGeneral:Invalid arguments"], none⟩⟩ =
        .error (.apiError (String.intercalate ", " ["EGeneral:Invalid arguments"])) ∧
      handleKrakenResponse (T := Nat) ⟨200, "OK", "{}", some ⟨some [], some 7⟩⟩ = .ok (some 7) :=
  ⟨(C4_response_contract ⟨500, "Internal Server Error", "boom", none⟩).1 (by decide),
   (C4_response_contract _).2.1 ⟨some ["EGeneral:Invalid arguments"], none⟩
     ["EGeneral:Invalid arguments"] (by decide) rfl rfl (by simp),
   (C4_response_contract _).2.2 ⟨some [], some 7⟩ (by decide) rfl (Or.inr rfl)⟩

/-! ## Claim C9 — signing input errors -/

/-- C9: `generateKrakenSignature` fails (with an input error, never a
transport value) exactly when the payload lacks a `nonce` field — whether
the data is a JSON string or an object — or when the `data` argument is
neither a string nor an object; whenever the payload carries a nonce it
succeeds. -/
theorem C9_signature_input_errors (urlPath secret : String) (d : KrakenDataInput) :
    (∃ sig, generateKrakenSignature urlPath d secret = .ok sig) ↔
      (dataInputHasNonce d = true ∧ ¬ d = KrakenDataInput.invalid) := by
  unfold generateKrakenSignature dataInputHasNonce signatureEncoded
  cases d with
  | invalid => simp [Except.map]
  | obj fields =>
    cases hl : lookupProp fields "nonce" <;> simp [hl, Except.map]
  | str s =>
    cases hp : jsonParse s with
    | none => simp [hp, Except.map]
    | some j =>
      cases j with
      | null => simp [hp, Except.map, jsonGetProp]
      | bool b => cases hg : jsonGetProp (.bool b) "nonce" <;> simp [hp, hg, Except.map]
      | num raw => cases hg : jsonGetProp (.num raw) "nonce" <;> simp [hp, hg, Except.map]
      | str t => cases hg : jsonGetProp (.str t) "nonce" <;> simp [hp, hg, Except.map]
      | arr elems => cases hg : jsonGetProp (.arr elems) "nonce" <;> simp [hp, hg, Except.map]
      | obj fs => cases hg : jsonGetProp (.obj fs) "nonce" <;> simp [hp, hg, Except.map]

/-! ## Helper lemmas: payload assembly -/

theorem find?_map_setProp (l : List (String × FieldValue)) (k : String) (v : FieldValue)
    (h : l.any (fun kv => kv.1 = k) = true) :
    (l.map fun kv => if kv.1 = k then (k, v) else kv).find? (fun kv => kv.1 = k)
      = some (k, v) := by
  induction l with
  | nil => simp at h
  | cons p t ih =>
    by_cases hp : p.1 = k
    · simp [List.find?_cons, hp]
    · have ht : t.any (fun kv => kv.1 = k) = true := by
        simpa [List.any_cons, hp] using h
      simp [List.find?_cons, hp, ih ht]

theorem find?_map_setProp_ne (l : List (String × FieldValue)) (k k' : String) (v : FieldValue)
    (hk : ¬ k' = k) :
    (l.map fun kv => if kv.1 = k' then (k', v) else kv).find? (fun kv => kv.1 = k)
      = l.find? (fun kv => kv.1 = k) := by
  induction l with
  | nil => rfl
  | cons p t ih =>
    by_cases hp : p.1 = k'
    · have hpk : ¬ p.1 = k := by rw [hp]; exact hk
      simp [List.find?_cons, hp, hk, hpk, ih]
    · simp [List.find?_cons, hp, ih]

theorem find?_append_single (l : List (String × FieldValue)) (k : String) (v : FieldValue)
    (h : ¬ l.any (fun kv => kv.1 = k) = true) :
    (l ++ [(k, v)]).find? (fun kv => kv.1 = k) = some (k, v) := by
  induction l with
  | nil => simp [List.find?]
  | cons p t ih =>
    have hp : ¬ p.1 = k := fun hc => h (by simp [List.any_cons, hc])
    have ht : ¬ t.any (fun kv => kv.1 = k) = true := fun hc => h (by simp [List.any_cons, hc])
    simp [List.find?_cons, hp, ih ht]

theorem find?_append_single_ne (l : List (String × FieldValue)) (k k' : String) (v : FieldValue)
    (hk : ¬ k' = k) :
    (l ++ [(k', v)]).find? (fun kv => kv.1 = k) = l.find? (fun kv => kv.1 = k) := by
  induction l with
  | nil => simp [List.find?, hk]
  | cons p t ih => by_cases hp : p.1 = k <;> simp [List.find?_cons, hp, ih]

theorem lookupProp_jsSetProp (l : List (String × FieldValue)) (k : String) (v : FieldValue) :
    lookupProp (jsSetProp l k v) k = some v := by
  unfold jsSetProp lookupProp
  by_cases h : l.any (fun kv => kv.1 = k) = true
  · rw [if_pos h, find?_map_setProp l k v h]
    rfl
  · rw [if_neg h, find?_append_single l k v h]
    rfl

theorem lookupProp_jsSetProp_ne (l : List (String × FieldValue)) (k k' : String)
    (v : FieldValue) (hk : ¬ k' = k) :
    lookupProp (jsSetProp l k' v) k = lookupProp l k := by
  unfold jsSetProp lookupProp
  by_cases h : l.any (fun kv => kv.1 = k') = true
  · rw [if_pos h, find?_map_setProp_ne l k k' v hk]
  · rw [if_neg h, find?_append_single_ne l k k' v hk]

theorem lookupProp_buildPayload (body : List (String × FieldValue)) (nonce : Nat)
    (otp : Option String) :
    lookupProp (buildPayload body nonce otp) "nonce" = some (.num nonce) := by
  unfold buildPayload
  cases otp with
  | none => exact lookupProp_jsSetProp body "nonce" (.num nonce)
  | some o =>
    by_cases ho : o = ""
    · simp only [ho, if_pos rfl]
      exact lookupProp_jsSetProp body "nonce" (.num nonce)
    · simp only [if_neg ho]
      rw [lookupProp_jsSetProp_ne _ _ "otp" _ (by decide)]
      exact lookupProp_jsSetProp body "nonce" (.num nonce)

/-! ## Claim C10 — the signed payload and the sent payload agree -/

/-- C10: for every `request`, the payload holds exactly the freshly
generated nonce (a caller-supplied `nonce` in the body is overwritten), the
form-encoded body sent over the wire is the serialisation of that same
payload, and the signature is computed over `String(nonce)` prepended to
exactly that body string — so the signed bytes and the sent bytes always
agree on the nonce. -/
theorem C10_request_nonce_consistency (endpoint secret : String)
    (body : List (String × FieldValue)) (nonce : Nat) (otp : Option String) :
    lookupProp (prepareRequest endpoint secret body nonce otp).payload "nonce"
        = some (.num nonce) ∧
      (prepareRequest endpoint secret body nonce otp).formData
        = qsStringify (prepareRequest endpoint secret body nonce otp).payload ∧
      (prepareRequest endpoint secret body nonce otp).signature
        = .ok (signatureOfEncoded endpoint secret
            (Nat.repr nonce ++ (prepareRequest endpoint secret body nonce otp).formData)) := by
  refine ⟨lookupProp_buildPayload body nonce otp, rfl, ?_⟩
  show generateKrakenSignature endpoint (.obj (buildPayload body nonce otp)) secret = _
  unfold generateKrakenSignature signatureEncoded
  dsimp only
  rw [lookupProp_buildPayload body nonce otp]
  rfl

/-! ## Helper lemmas: byte encodings -/

theorem char_ofNat_toNat (b : Nat) (h : b < 256) : (Char.ofNat b).toNat = b := by
  have hv : b.isValidChar := Or.inl (by omega)
  simp [Char.ofNat, hv, Char.ofNatAux, Char.toNat, UInt32.toNat, BitVec.toNat_ofNatLt]

theorem jsBinaryBytes_append (a b : String) :
    jsBinaryBytes (a ++ b) = jsBinaryBytes a ++ jsBinaryBytes b := by
  simp [jsBinaryBytes]

theorem jsBinaryBytes_latin1 (l : List Nat) (h : ∀ b ∈ l, b < 256) :
    jsBinaryBytes (latin1StringOfBytes l) = l := by
  unfold jsBinaryBytes latin1StringOfBytes
  show (l.map fun b => Char.ofNat (b % 256)).map (fun c => c.toNat % 256) = l
  rw [List.map_map]
  refine (List.map_congr_left ?_).trans (List.map_id l)
  intro b hb
  have hb' := h b hb
  have hmod : b % 256 = b := Nat.mod_eq_of_lt hb'
  show (Char.ofNat (b % 256)).toNat % 256 = b
  rw [hmod, char_ofNat_toNat b hb', hmod]

theorem binaryBytes_ascii_list (l : List Char) (h : ∀ c ∈ l, c.toNat < 128) :
    l.map (fun c => c.toNat % 256) = l.flatMap utf8EncodeChar := by
  induction l with
  | nil => rfl
  | cons c t ih =>
    have hc : c.toNat < 128 := h c (List.mem_cons_self c t)
    have ht : ∀ x ∈ t, x.toNat < 128 := fun x hx => h x (List.mem_cons_of_mem c hx)
    rw [List.map_cons, List.flatMap_cons, ih ht]
    have henc : utf8EncodeChar c = [c.toNat] := by
      unfold utf8EncodeChar
      rw [if_pos (by omega : c.toNat < 0x80)]
    rw [henc, Nat.mod_eq_of_lt (by omega : c.toNat < 256)]
    rfl

theorem jsBinaryBytes_ascii (s : String) (h : ∀ c ∈ s.data, c.toNat < 128) :
    jsBinaryBytes s = utf8Bytes s :=
  binaryBytes_ascii_list s.data h

theorem sha2_bytes_lt (cfg : Sha2Config) (msg : List Nat) : ∀ b ∈ sha2 cfg msg, b < 256 := by
  intro b hb
  unfold sha2 at hb
  rw [List.mem_flatMap] at hb
  obtain ⟨w, _, hbw⟩ := hb
  unfold wordToBytesBE at hbw
  rw [List.mem_map] at hbw
  obtain ⟨i, _, rfl⟩ := hbw
  exact Nat.mod_lt _ (by norm_num)

theorem sha256_bytes_lt (msg : List Nat) : ∀ b ∈ sha256 msg, b < 256 :=
  sha2_bytes_lt sha256Config msg

/-- Known-answer test: the FIPS 180-4 appendix vector `SHA-256("abc")`,
checked by kernel evaluation — the model's `sha256` is the real SHA-256. -/
theorem sha256_known_answer : sha256 (utf8Bytes "abc") =
    [186, 120, 22, 191, 143, 1, 207, 234, 65, 65, 64, 222, 93, 174, 34, 35,
     176, 3, 97, 163, 150, 23, 122, 156, 180, 16, 255, 97, 242, 0, 21, 173] := by
  decide

set_option maxRecDepth 100000 in
/-- Known-answer test: the worked `API-Sign` example from Kraken's API
documentation (path `/0/private/AddOrder`, nonce `1616492376594`, the
documented payload and base64 secret), checked by kernel evaluation.  This
exercises the whole modelled pipeline at once — `querystring.stringify`,
UTF-8, SHA-256, the latin-1 digest append, base64 decoding of the secret,
HMAC-SHA512 and base64 encoding — against an externally published
signature. -/
theorem generateKrakenSignature_known_answer :
    (generateKrakenSignature "/0/private/AddOrder"
      (.obj [("nonce", .num 1616492376594), ("ordertype", .str "limit"),
             ("pair", .str "XBTUSD"), ("price", .num 37500),
             ("type", .str "buy"), ("volume", .str "1.25")])
      "kQH5HW/8p1uGOVjbgWA7FunAmGO8lsSUXNsu3eow76sz84Q18fWxnyRzBHCd3pd5nE9qa99HAZtuZuj6F1huXg==").toOption
    = some "4/dpxb3iT4tp/ZCVEwSnEsLxx0bqyhLpdfOpc6fn7OR8+UClSV5n9E6aSS8MPtnRfp32bAb0nmbRn6H8ndwLUQ==" := by
  decide

/-! ## Claim C1 — the signature formula -/

/-- C1: for every (ASCII) URL path, every object payload carrying a
`nonce` field, and every base64-encoded secret, `generateKrakenSignature`
returns exactly
`base64(HMAC-SHA512(key = base64-decode(secret),
  message = urlPath bytes ++ SHA256(String(nonce) ++ stringify(payload))))`
where the nonce's string representation is prepended to the serialisation
of the full payload (nonce field included) and the SHA-256 digest is
appended to the path as raw bytes.  (The ASCII hypothesis pins down "the
path's bytes"; every Kraken endpoint path is ASCII.) -/
theorem C1_signature_formula (urlPath secret : String)
    (fields : List (String × FieldValue)) (v : FieldValue)
    (hascii : ∀ c ∈ urlPath.data, c.toNat < 128)
    (hnonce : lookupProp fields "nonce" = some v) :
    generateKrakenSignature urlPath (.obj fields) secret
      = .ok (krakenSignatureSpec urlPath fields secret v) := by
  have hbytes : jsBinaryBytes (urlPath ++
        latin1StringOfBytes (sha256 (utf8Bytes (v.jsString ++ qsStringify fields))))
      = utf8Bytes urlPath ++ sha256 (utf8Bytes (v.jsString ++ qsStringify fields)) := by
    rw [jsBinaryBytes_append,
        jsBinaryBytes_latin1 _ (sha256_bytes_lt _),
        jsBinaryBytes_ascii urlPath hascii]
  unfold generateKrakenSignature signatureEncoded krakenSignatureSpec
  dsimp only
  rw [hnonce]
  dsimp only [Except.map]
  rw [hbytes]

/-- C1, witness: the signature formula applied to the Balance endpoint
with a one-field payload and a concrete base64 secret. -/
theorem C1_signature_witness :
    (∀ c ∈ "/0/private/Balance".data, c.toNat < 128) ∧
      lookupProp [("nonce", FieldValue.num 1616492376594)] "nonce"
        = some (.num 1616492376594) ∧
      generateKrakenSignature "/0/private/Balance"
          (.obj [("nonce", .num 1616492376594)]) "a1Jhbktlbg==" =
        .ok (krakenSignatureSpec "/0/private/Balance"
          [("nonce", .num 1616492376594)] "a1Jhbktlbg==" (.num 1616492376594)) :=
  ⟨by decide, by decide,
   C1_signature_formula "/0/private/Balance" "a1Jhbktlbg=="
     [("nonce", .num 1616492376594)] (.num 1616492376594) (by decide) (by decide)⟩

/-! ## Claims C5, C6 — the orchestrator's decisions -/

/-- C5: in the orchestrator's fixed sequence, a sell order is placed if and
only if the USDC balance parses (at scale 8) to a value strictly greater
than zero, a withdrawal is issued if and only if the USD balance in base
units at scale 4 is at least the configured threshold at the same scale,
and the flow always proceeds to the USD balance check (also when no sell
order is placed). -/
theorem C5_orchestrator_conditions (config : AppConfig) (usdcBalance usdBalance : String)
    (a b : Nat)
    (ha : parseDecimalToBigInt usdcBalance 8 = some a)
    (hb : parseDecimalToBigInt usdBalance 4 = some b) :
    ((∃ body, BotAction.privateCall "/0/private/AddOrder" body
        ∈ (mainTrace config usdcBalance usdBalance).1) ↔ 0 < a) ∧
      ((∃ body, BotAction.privateCall "/0/private/Withdraw" body
        ∈ (mainTrace config usdcBalance usdBalance).1) ↔
          config.minimumWithdrawalUSD * 10000 ≤ b) ∧
      BotAction.queryBalance "ZUSD" ∈ (mainTrace config usdcBalance usdBalance).1 := by
  unfold mainTrace
  rw [ha, hb]
  dsimp only
  by_cases h1 : 0 < a <;> by_cases h2 : config.minimumWithdrawalUSD * 10000 ≤ b <;>
    simp [h1, h2]

/-- C5, witness: the zero-balance/below-threshold scenario — balance
`"0.00000000"` places no sell order, the flow still reaches the USD check,
and `"5.0000"` against a $10 threshold issues no withdrawal. -/
theorem C5_orchestrator_witness :
    ((∃ body, BotAction.privateCall "/0/private/AddOrder" body
        ∈ (mainTrace ⟨10, "Mercury"⟩ "0.00000000" "5.0000").1) ↔ 0 < 0) ∧
      ((∃ body, BotAction.privateCall "/0/private/Withdraw" body
        ∈ (mainTrace ⟨10, "Mercury"⟩ "0.00000000" "5.0000").1) ↔
          (AppConfig.mk 10 "Mercury").minimumWithdrawalUSD * 10000 ≤ 50000) ∧
      BotAction.queryBalance "ZUSD" ∈ (mainTrace ⟨10, "Mercury"⟩ "0.00000000" "5.0000").1 :=
  C5_orchestrator_conditions ⟨10, "Mercury"⟩ "0.00000000" "5.0000" 0 50000
    (by decide) (by decide)

/-- C6: the code, run at the failing input.  With the configuration's
withdrawal-destination key set to `"MyBank"` and an above-threshold USD
balance of `"50.0000"`, the orchestrator issues the withdrawal with the
hard-coded key `"Mercury"` (from `withdrawToMercury` in
`src/api/withdrawal.ts`), not the configured key: the configured
`usdWithdrawalKey` is loaded and validated but never consulted. -/
theorem C6_withdrawal_key_hardcoded :
    (mainTrace ⟨10, "MyBank"⟩ "0.00000000" "50.0000").1 =
        [.queryBalance "USDC", .settleWait 2000, .queryBalance "ZUSD",
         .privateCall "/0/private/Withdraw" (withdrawToMercuryBody "50.0000")] ∧
      withdrawToMercuryBody "50.0000" = withdrawBody "USD" "Mercury" "50.0000" ∧
      ¬ (AppConfig.mk 10 "MyBank").usdWithdrawalKey = "Mercury" := by
  refine ⟨by decide, rfl, by decide⟩

end KrakenBot
